import Mathlib

/-!
Shallow embedding of the schedy scheduling application (src/main.py, src/models.py).

Table rows are Lean structures; the database is a record of lists of rows together
with the autoincrement counters of the primary keys.  Each FastAPI POST handler of
main.py becomes a pure function from the current database, the current user as
resolved by get_current_user (None for an anonymous request), and the form fields,
to the pair (redirect URL, new database).  Datetimes are modelled as integers
(naive local datetimes are totally ordered); parse_dt's output is passed to the
handlers as an `Option Int` (None when parsing failed), which is all the handlers
inspect.  SQLAlchemy sessions here are created with autoflush=False (src/db.py),
so every query inside a handler sees the committed state from the start of the
request; the embedding therefore lets each in-handler query read the request's
initial lists.  `db.query(...).first()` is `List.find?`, mutating the object that
`first()` returned is `updateFirst`, `db.delete(obj)` on that object is
`List.eraseP`, and `query.filter(...).delete()` / cascade deletes are `List.filter`.

Note on the schema: main.py reads and writes `Event.ends_at`,
`EventTimeSuggestion.proposed_ends_at` and `EventTimeSuggestion.comment`, and the
row structures below carry these fields as the handler code uses them.  The column
lists actually declared by models.py are embedded separately below
(`eventTableColumns`, `eventTimeSuggestionTableColumns`, ...), because models.py
declares fewer columns than main.py uses; that discrepancy is examined on its own.
-/

namespace Schedy

/-- Row of the users table (models.py `User`; the relationship attributes are
derived from the foreign keys of the other tables and are not separate state). -/
structure User where
  id : Int
  name : String
  username : String
  email : String
  password_hash : String
deriving DecidableEq

/-- Row of the events table as read and written by main.py (models.py `Event`
plus the `ends_at` attribute that main.py uses throughout; see
`eventTableColumns` for the columns models.py actually declares). -/
structure Event where
  id : Int
  title : String
  starts_at : Int
  ends_at : Int
  description : Option String
  created_by_user_id : Int
deriving DecidableEq

/-- Row of the event_invites table (models.py `EventInvite`). -/
structure EventInvite where
  id : Int
  event_id : Int
  user_id : Int
  invited_by_user_id : Int
deriving DecidableEq

/-- Row of the event_responses table (models.py `EventResponse`). -/
structure EventResponse where
  id : Int
  event_id : Int
  user_id : Int
  status : String
  comment : Option String
deriving DecidableEq

/-- Row of the event_time_suggestions table as read and written by main.py
(models.py `EventTimeSuggestion` plus the `proposed_ends_at` and `comment`
attributes that main.py uses; see `eventTimeSuggestionTableColumns`). -/
structure EventTimeSuggestion where
  id : Int
  event_id : Int
  proposed_by_user_id : Int
  proposed_starts_at : Int
  proposed_ends_at : Int
  accepted : Bool
  comment : Option String
deriving DecidableEq

/-- Row of the event_time_votes table (models.py `EventTimeVote`). -/
structure EventTimeVote where
  id : Int
  suggestion_id : Int
  user_id : Int
  vote : String
deriving DecidableEq

/-- The relational store: one list per table, plus the autoincrement counter of
each table's integer primary key. -/
structure DB where
  users : List User
  events : List Event
  invites : List EventInvite
  responses : List EventResponse
  suggestions : List EventTimeSuggestion
  votes : List EventTimeVote
  nextEventId : Int
  nextInviteId : Int
  nextResponseId : Int
  nextSuggestionId : Int
  nextVoteId : Int

/-- Column names declared on models.py's `Event` (src/models.py lines 35-49). -/
def eventTableColumns : List String :=
  ["id", "title", "starts_at", "description", "created_by_user_id"]

/-- Column names declared on models.py's `EventTimeSuggestion`
(src/models.py lines 91-108). -/
def eventTimeSuggestionTableColumns : List String :=
  ["id", "event_id", "proposed_by_user_id", "proposed_starts_at", "accepted"]

/-- Columns of models.py's unique constraint `uq_event_suggested_time`
(src/models.py line 107). -/
def uqEventSuggestedTimeColumns : List String :=
  ["event_id", "proposed_starts_at"]

/-- Event attributes that main.py reads or writes on events
(add_event, cleanup_past_events, accept_time, overlaps_day, ...). -/
def eventAttrsUsedByMain : List String :=
  ["id", "title", "starts_at", "ends_at", "description", "created_by_user_id"]

/-- Suggestion attributes that main.py reads or writes on time suggestions
(suggest_time, accept_time, vote_time, the dashboard views). -/
def suggestionAttrsUsedByMain : List String :=
  ["id", "event_id", "proposed_by_user_id", "proposed_starts_at",
   "proposed_ends_at", "accepted", "comment"]

/-- main.py `ALLOWED_STATUSES` (a set literal; membership only). -/
def ALLOWED_STATUSES : List String := ["yes", "maybe", "no"]

/-- main.py `MAX_TEXT`. -/
def MAX_TEXT : Nat := 300

/-- Drops leading whitespace from a character list. -/
def stripLeftChars : List Char → List Char
  | [] => []
  | c :: cs => if c.isWhitespace then stripLeftChars cs else c :: cs

/-- Python's `str.strip()`: remove leading and trailing whitespace. -/
def pyStrip (s : String) : String :=
  ⟨(stripLeftChars (stripLeftChars s.data.reverse).reverse)⟩

/-- Python's `str.lower()`, characterwise (the statuses and votes the handlers
compare against are ASCII). -/
def pyLower (s : String) : String := ⟨s.data.map Char.toLower⟩

/-- main.py `clip`: strip, and turn an empty or missing string into None. -/
def clip : Option String → Option String
  | none => none
  | some s =>
    let s := pyStrip s
    if s = "" then none else some s

/-- Replaces the first element satisfying `p` by its image under `f`; models
mutating the row object returned by `query(...).first()`. -/
def updateFirst (p : α → Bool) (f : α → α) : List α → List α
  | [] => []
  | x :: xs => if p x then f x :: xs else x :: updateFirst p f xs

/-- main.py `visible_events_query`: anonymous users match no event (the
`Event.id == -1` filter); a logged-in user sees the events they created or are
invited to (outer join with event_invites, filtered by the `or_`, distinct). -/
def visible_events_query (db : DB) (user : Option User) : List Event :=
  match user with
  | none => db.events.filter (fun e => e.id == -1)
  | some u =>
    db.events.filter (fun e =>
      e.created_by_user_id == u.id
        || db.invites.any (fun i => i.event_id == e.id && i.user_id == u.id))

/-- main.py `is_event_visible_to_user`. -/
def is_event_visible_to_user (db : DB) (event_id : Int) (user : User) : Bool :=
  match db.events.find? (fun e => e.id == event_id) with
  | none => false
  | some e =>
    if e.created_by_user_id == user.id then true
    else (db.invites.find? (fun i =>
      i.event_id == event_id && i.user_id == user.id)).isSome

/-- main.py `cleanup_past_events`: delete events whose `ends_at` is in the past;
the ORM cascades (models.py `cascade="all, delete-orphan"`) delete the dead
events' responses, suggestions and invites, and the dead suggestions' votes. -/
def cleanup_past_events (db : DB) (now : Int) : DB :=
  let deadEventIds := (db.events.filter (fun e => e.ends_at < now)).map Event.id
  let deadSugIds := (db.suggestions.filter
      (fun s => deadEventIds.contains s.event_id)).map EventTimeSuggestion.id
  { db with
    events := db.events.filter (fun e => !(e.ends_at < now)),
    responses := db.responses.filter (fun r => !(deadEventIds.contains r.event_id)),
    suggestions := db.suggestions.filter (fun s => !(deadEventIds.contains s.event_id)),
    invites := db.invites.filter (fun i => !(deadEventIds.contains i.event_id)),
    votes := db.votes.filter (fun v => !(deadSugIds.contains v.suggestion_id)) }

/-- The invite loop shared by main.py `add_event` and `invite_to_event`: walk the
picked users, skip the inviter and users with an existing invite for the event
(checked against the committed invites, autoflush being off), and add one invite
per remaining user, drawing fresh primary keys from `nextId`. -/
def addInvites (invites : List EventInvite) (event_id inviter_id : Int)
    (picked : List User) (nextId : Int) : List EventInvite × Int :=
  match picked with
  | [] => ([], nextId)
  | u0 :: rest =>
    if u0.id == inviter_id then
      addInvites invites event_id inviter_id rest nextId
    else if (invites.find? (fun i =>
        i.event_id == event_id && i.user_id == u0.id)).isSome then
      addInvites invites event_id inviter_id rest nextId
    else
      let (is, n) := addInvites invites event_id inviter_id rest (nextId + 1)
      ({ id := nextId, event_id := event_id, user_id := u0.id,
         invited_by_user_id := inviter_id } :: is, n)

/-- main.py `add_event` (POST /add).  `starts_at`/`ends_at` are the results of
`parse_dt` on the four date/time form fields. -/
def add_event (db : DB) (user : Option User) (title : String)
    (starts_at ends_at : Option Int) (description : String)
    (invitee_ids : List Int) : String × DB :=
  match user with
  | none => ("/?error=LOGIN_REQUIRED", db)
  | some user =>
    let title := (clip (some title)).getD ""
    let description := clip (some description)
    if (match description with
        | some d => decide (d.length > MAX_TEXT)
        | none => false) then
      ("/tasks?error=DESC_TOO_LONG", db)
    else
      match starts_at, ends_at with
      | some s, some e =>
        if e ≤ s then ("/tasks?error=BAD_RANGE", db)
        else
          let ev : Event :=
            { id := db.nextEventId, title := title, starts_at := s, ends_at := e,
              description := description, created_by_user_id := user.id }
          let resp : EventResponse :=
            { id := db.nextResponseId, event_id := ev.id, user_id := user.id,
              status := "yes", comment := none }
          let picked := db.users.filter (fun u0 => invitee_ids.contains u0.id)
          let invs := addInvites db.invites ev.id user.id picked db.nextInviteId
          ("/tasks?view=pending",
            { db with
              events := db.events ++ [ev],
              responses := db.responses ++ [resp],
              invites := db.invites ++ invs.1,
              nextEventId := db.nextEventId + 1,
              nextResponseId := db.nextResponseId + 1,
              nextInviteId := invs.2 })
      | _, _ => ("/tasks?error=BAD_RANGE", db)

/-- main.py `invite_to_event` (POST /invite). -/
def invite_to_event (db : DB) (user : Option User) (event_id : Int)
    (invitee_ids : List Int) : String × DB :=
  match user with
  | none => ("/?error=LOGIN_REQUIRED", db)
  | some user =>
    match db.events.find? (fun e => e.id == event_id) with
    | none => ("/tasks?error=NO_EVENT", db)
    | some e =>
      if e.created_by_user_id != user.id then ("/tasks?error=NOT_CREATOR", db)
      else
        let picked := db.users.filter (fun u0 => invitee_ids.contains u0.id)
        let invs := addInvites db.invites event_id user.id picked db.nextInviteId
        ("/tasks", { db with
          invites := db.invites ++ invs.1,
          nextInviteId := invs.2 })

/-- main.py `respond` (POST /respond). -/
def respond (db : DB) (user : Option User) (event_id : Int)
    (status comment : String) : String × DB :=
  match user with
  | none => ("/?error=LOGIN_REQUIRED", db)
  | some user =>
    let status := pyLower (pyStrip status)
    if !(ALLOWED_STATUSES.contains status) then ("/tasks?error=BAD_STATUS", db)
    else
      let comment := clip (some comment)
      if (match comment with
          | some c => decide (c.length > MAX_TEXT)
          | none => false) then
        ("/tasks?error=COMMENT_TOO_LONG", db)
      else if !(is_event_visible_to_user db event_id user) then
        ("/tasks?error=FORBIDDEN", db)
      else
        match db.responses.find? (fun r =>
            r.event_id == event_id && r.user_id == user.id) with
        | some _ =>
          ("/tasks", { db with
            responses := updateFirst
              (fun r => r.event_id == event_id && r.user_id == user.id)
              (fun r => { r with status := status, comment := comment })
              db.responses })
        | none =>
          ("/tasks", { db with
            responses := db.responses ++
              [{ id := db.nextResponseId, event_id := event_id,
                 user_id := user.id, status := status, comment := comment }],
            nextResponseId := db.nextResponseId + 1 })

/-- main.py `suggest_time` (POST /suggest_time): add the suggestion unless one
with the same proposed range exists for the event, then force the proposer's
response for the current schedule to "no" (updating in place, or inserting a
fresh "no" response). -/
def suggest_time (db : DB) (user : Option User) (event_id : Int)
    (p_start p_end : Option Int) (comment : String) : String × DB :=
  match user with
  | none => ("/?error=LOGIN_REQUIRED", db)
  | some user =>
    match p_start, p_end with
    | some ps, some pe =>
      if pe ≤ ps then ("/tasks?error=BAD_RANGE", db)
      else
        let comment := clip (some comment)
        if (match comment with
            | some c => decide (c.length > MAX_TEXT)
            | none => false) then
          ("/tasks?error=COMMENT_TOO_LONG", db)
        else if !(is_event_visible_to_user db event_id user) then
          ("/tasks?error=FORBIDDEN", db)
        else
          let db1 : DB :=
            match db.suggestions.find? (fun s =>
                s.event_id == event_id && s.proposed_starts_at == ps
                  && s.proposed_ends_at == pe) with
            | some _ => db
            | none =>
              { db with
                suggestions := db.suggestions ++
                  [{ id := db.nextSuggestionId, event_id := event_id,
                     proposed_by_user_id := user.id, proposed_starts_at := ps,
                     proposed_ends_at := pe, accepted := false,
                     comment := comment }],
                nextSuggestionId := db.nextSuggestionId + 1 }
          match db1.responses.find? (fun r =>
              r.event_id == event_id && r.user_id == user.id) with
          | some _ =>
            ("/tasks", { db1 with
              responses := updateFirst
                (fun r => r.event_id == event_id && r.user_id == user.id)
                (fun r => { r with status := "no" })
                db1.responses })
          | none =>
            ("/tasks", { db1 with
              responses := db1.responses ++
                [{ id := db1.nextResponseId, event_id := event_id,
                   user_id := user.id, status := "no", comment := none }],
              nextResponseId := db1.nextResponseId + 1 })
    | _, _ => ("/tasks?error=BAD_RANGE", db)

/-- main.py `vote_time` (POST /vote_time): toggle off an identical existing vote,
overwrite a differing one, insert when there is none. -/
def vote_time (db : DB) (user : Option User) (suggestion_id : Int)
    (vote : String) : String × DB :=
  match user with
  | none => ("/?error=LOGIN_REQUIRED", db)
  | some user =>
    let vote := pyLower (pyStrip vote)
    if !(vote == "up" || vote == "down") then ("/tasks?error=BAD_VOTE", db)
    else
      match db.suggestions.find? (fun s => s.id == suggestion_id) with
      | none => ("/tasks?error=NO_SUGGESTION", db)
      | some s =>
        if !(is_event_visible_to_user db s.event_id user) then
          ("/tasks?error=FORBIDDEN", db)
        else
          match db.votes.find? (fun v =>
              v.suggestion_id == suggestion_id && v.user_id == user.id) with
          | some existing =>
            if existing.vote == vote then
              ("/tasks", { db with
                votes := db.votes.eraseP (fun v =>
                  v.suggestion_id == suggestion_id && v.user_id == user.id) })
            else
              ("/tasks", { db with
                votes := updateFirst
                  (fun v => v.suggestion_id == suggestion_id && v.user_id == user.id)
                  (fun v => { v with vote := vote })
                  db.votes })
          | none =>
            ("/tasks", { db with
              votes := db.votes ++
                [{ id := db.nextVoteId, suggestion_id := suggestion_id,
                   user_id := user.id, vote := vote }],
              nextVoteId := db.nextVoteId + 1 })

/-- main.py `accept_time` (POST /accept_time): creator-only; apply the proposed
range to the event, mark exactly the accepted suggestion among the event's
suggestions, delete every response of the event and re-add the creator's "yes". -/
def accept_time (db : DB) (user : Option User) (suggestion_id : Int) :
    String × DB :=
  match user with
  | none => ("/?error=LOGIN_REQUIRED", db)
  | some user =>
    match db.suggestions.find? (fun s => s.id == suggestion_id) with
    | none => ("/tasks?error=NO_SUGGESTION", db)
    | some s =>
      match db.events.find? (fun e => e.id == s.event_id) with
      | none => ("/tasks?error=NO_EVENT", db)
      | some e =>
        if e.created_by_user_id != user.id then ("/tasks?error=NOT_CREATOR", db)
        else
          ("/tasks",
            { db with
              events := updateFirst (fun ev => ev.id == s.event_id)
                (fun ev => { ev with
                  starts_at := s.proposed_starts_at,
                  ends_at := s.proposed_ends_at }) db.events,
              suggestions := db.suggestions.map (fun x =>
                if x.event_id == e.id then { x with accepted := x.id == s.id }
                else x),
              responses := db.responses.filter (fun r => !(r.event_id == e.id)) ++
                [{ id := db.nextResponseId, event_id := e.id, user_id := user.id,
                   status := "yes", comment := none }],
              nextResponseId := db.nextResponseId + 1 })

/-- The flag-accumulating loop inside main.py `day_status_for_user`: walk the
day's events and record whether a "no", a missing response, a "maybe" or a
"yes" was seen for the user. -/
def dayFlags (uid : Int) (resp_index : Int × Int → Option EventResponse) :
    List Event → Bool → Bool → Bool → Bool → Bool × Bool × Bool × Bool
  | [], saw_no, saw_pending, saw_maybe, saw_yes =>
    (saw_no, saw_pending, saw_maybe, saw_yes)
  | e :: es, saw_no, saw_pending, saw_maybe, saw_yes =>
    match resp_index (e.id, uid) with
    | none => dayFlags uid resp_index es saw_no true saw_maybe saw_yes
    | some r =>
      if r.status == "no" then
        dayFlags uid resp_index es true saw_pending saw_maybe saw_yes
      else if r.status == "maybe" then
        dayFlags uid resp_index es saw_no saw_pending true saw_yes
      else if r.status == "yes" then
        dayFlags uid resp_index es saw_no saw_pending saw_maybe true
      else
        dayFlags uid resp_index es saw_no saw_pending saw_maybe saw_yes

/-- main.py `day_status_for_user`.  The `resp_index` dict built from the
responses (keyed by `(event_id, user_id)`) is passed as a lookup function. -/
def day_status_for_user (user : Option User) (events_on_day : List Event)
    (resp_index : Int × Int → Option EventResponse) : String :=
  match user with
  | none => "empty"
  | some u =>
    if events_on_day.isEmpty then "empty"
    else
      match dayFlags u.id resp_index events_on_day false false false false with
      | (saw_no, saw_pending, saw_maybe, saw_yes) =>
        if saw_no then "no"
        else if saw_pending then "pending"
        else if saw_maybe then "maybe"
        else if saw_yes then "yes"
        else "pending"

/-- Restatement of the claimed aggregation order in the spec's words: "no" if
any event has a "no" response from the user, otherwise "pending" if any event
has no response, otherwise "maybe" if any response is "maybe", otherwise "yes"
if any response is "yes", and "pending" as a fallback.  Compared against
`day_status_for_user`, which is translated from the source. -/
def dayStatusSpec (u : User) (evs : List Event)
    (resp_index : Int × Int → Option EventResponse) : String :=
  if evs.any (fun e => match resp_index (e.id, u.id) with
      | some r => r.status == "no" | none => false) then "no"
  else if evs.any (fun e => (resp_index (e.id, u.id)).isNone) then "pending"
  else if evs.any (fun e => match resp_index (e.id, u.id) with
      | some r => r.status == "maybe" | none => false) then "maybe"
  else if evs.any (fun e => match resp_index (e.id, u.id) with
      | some r => r.status == "yes" | none => false) then "yes"
  else "pending"

/-- One request against a state-mutating endpoint of main.py.  The handlers
register/login/logout only touch the users table and the session cookie, and no
handler mutates the users table while events exist, so the event-side tables are
mutated exactly by these seven operations. -/
inductive Op where
  | addEventOp (user : Option User) (title : String)
      (starts_at ends_at : Option Int) (description : String)
      (invitee_ids : List Int)
  | inviteOp (user : Option User) (event_id : Int) (invitee_ids : List Int)
  | respondOp (user : Option User) (event_id : Int) (status comment : String)
  | suggestOp (user : Option User) (event_id : Int)
      (p_start p_end : Option Int) (comment : String)
  | voteOp (user : Option User) (suggestion_id : Int) (vote : String)
  | acceptOp (user : Option User) (suggestion_id : Int)
  | cleanupOp (now : Int)

/-- The database after serving one request. -/
def step (db : DB) : Op → DB
  | .addEventOp u t s e d ids => (add_event db u t s e d ids).2
  | .inviteOp u eid ids => (invite_to_event db u eid ids).2
  | .respondOp u eid st cm => (respond db u eid st cm).2
  | .suggestOp u eid ps pe cm => (suggest_time db u eid ps pe cm).2
  | .voteOp u sid v => (vote_time db u sid v).2
  | .acceptOp u sid => (accept_time db u sid).2
  | .cleanupOp now => cleanup_past_events db now

/-- The database after serving a sequence of requests. -/
def run (db : DB) (ops : List Op) : DB := ops.foldl step db

/-- No two (positionally distinct) suggestions of the same event are both
accepted: the "at most one accepted suggestion per event" invariant. -/
def AcceptedUnique (sugs : List EventTimeSuggestion) : Prop :=
  sugs.Pairwise (fun a b =>
    ¬(a.event_id = b.event_id ∧ a.accepted = true ∧ b.accepted = true))

/-- Suggestion primary keys are distinct and below the autoincrement counter
(the database's primary-key guarantee for event_time_suggestions). -/
def SugIdsOk (db : DB) : Prop :=
  (db.suggestions.map EventTimeSuggestion.id).Nodup ∧
    ∀ s ∈ db.suggestions, s.id < db.nextSuggestionId

/-- No two (positionally distinct) responses share an (event, user) pair: the
`uq_event_user_response` invariant of models.py. -/
def ResponsePairsUnique (resps : List EventResponse) : Prop :=
  resps.Pairwise (fun a b => ¬(a.event_id = b.event_id ∧ a.user_id = b.user_id))

/-- Event primary keys are below the autoincrement counter. -/
def EventIdsBounded (db : DB) : Prop :=
  ∀ e ∈ db.events, e.id < db.nextEventId

/-- Responses only reference primary keys below the events counter (they are
inserted only for existing events). -/
def ResponseEventIdsBounded (db : DB) : Prop :=
  ∀ r ∈ db.responses, r.event_id < db.nextEventId

/-- No two (positionally distinct) votes share a (suggestion, user) pair: the
`uq_suggestion_user_vote` invariant of models.py. -/
def VotePairsUnique (votes : List EventTimeVote) : Prop :=
  votes.Pairwise (fun a b =>
    ¬(a.suggestion_id = b.suggestion_id ∧ a.user_id = b.user_id))

theorem length_updateFirst (p : α → Bool) (f : α → α) (l : List α) :
    (updateFirst p f l).length = l.length := by
  induction l with
  | nil => rfl
  | cons x xs ih =>
    simp only [updateFirst]
    split <;> simp [ih]

theorem mem_updateFirst {p : α → Bool} {f : α → α} {l : List α} {b : α}
    (hb : b ∈ updateFirst p f l) : b ∈ l ∨ ∃ a ∈ l, b = f a := by
  induction l with
  | nil => simp [updateFirst] at hb
  | cons x xs ih =>
    simp only [updateFirst] at hb
    split at hb
    · rcases List.mem_cons.mp hb with h | h
      · exact Or.inr ⟨x, List.mem_cons_self x xs, h⟩
      · exact Or.inl (List.mem_cons_of_mem _ h)
    · rcases List.mem_cons.mp hb with h | h
      · exact Or.inl (h ▸ List.mem_cons_self x xs)
      · rcases ih h with h' | ⟨a, ha, hae⟩
        · exact Or.inl (List.mem_cons_of_mem _ h')
        · exact Or.inr ⟨a, List.mem_cons_of_mem _ ha, hae⟩

theorem pairwise_updateFirst {R : α → α → Prop} {p : α → Bool} {f : α → α}
    {l : List α} (h : l.Pairwise R)
    (h1 : ∀ a b, R a b → R (f a) b) (h2 : ∀ a b, R a b → R a (f b)) :
    (updateFirst p f l).Pairwise R := by
  induction l with
  | nil => exact h
  | cons x xs ih =>
    rcases List.pairwise_cons.mp h with ⟨hx, hxs⟩
    simp only [updateFirst]
    split
    · exact List.pairwise_cons.mpr ⟨fun b hb => h1 _ _ (hx b hb), hxs⟩
    · refine List.pairwise_cons.mpr ⟨fun b hb => ?_, ih hxs⟩
      rcases mem_updateFirst hb with h' | ⟨a, ha, hae⟩
      · exact hx b h'
      · exact hae ▸ h2 _ _ (hx a ha)

theorem filter_eq_of_find?_unique {p : α → Bool} {l : List α} {a : α}
    (hfind : l.find? p = some a)
    (huniq : l.Pairwise fun x y => ¬(p x = true ∧ p y = true)) :
    l.filter p = [a] := by
  induction l with
  | nil => simp at hfind
  | cons x xs ih =>
    rcases List.pairwise_cons.mp huniq with ⟨hx, hxs⟩
    by_cases hpx : p x = true
    · rw [List.find?_cons_of_pos _ hpx] at hfind
      obtain rfl := Option.some.inj hfind
      simp only [List.filter_cons, hpx, if_pos]
      have : xs.filter p = [] :=
        List.filter_eq_nil_iff.mpr fun b hb hpb => hx b hb ⟨hpx, hpb⟩
      simp [this]
    · rw [List.find?_cons_of_neg _ hpx] at hfind
      simp [List.filter_cons, hpx, ih hfind hxs]

theorem filter_eraseP_of_unique {p : α → Bool} {l : List α}
    (huniq : l.Pairwise fun x y => ¬(p x = true ∧ p y = true)) :
    (l.eraseP p).filter p = [] := by
  induction l with
  | nil => rfl
  | cons x xs ih =>
    rcases List.pairwise_cons.mp huniq with ⟨hx, hxs⟩
    by_cases hpx : p x = true
    · rw [List.eraseP_cons_of_pos hpx]
      exact List.filter_eq_nil_iff.mpr fun b hb hpb => hx b hb ⟨hpx, hpb⟩
    · rw [List.eraseP_cons_of_neg (by simpa using hpx)]
      simp [List.filter_cons, hpx, ih hxs]

theorem filter_not_eraseP {p : α → Bool} {l : List α} :
    (l.eraseP p).filter (fun x => !(p x)) = l.filter (fun x => !(p x)) := by
  induction l with
  | nil => rfl
  | cons x xs ih =>
    by_cases hpx : p x = true
    · rw [List.eraseP_cons_of_pos hpx]
      simp [List.filter_cons, hpx]
    · rw [List.eraseP_cons_of_neg (by simpa using hpx)]
      simp [List.filter_cons, hpx, ih]

theorem filter_updateFirst_pos {p : α → Bool} {f : α → α} {l : List α} {a : α}
    (hfind : l.find? p = some a)
    (huniq : l.Pairwise fun x y => ¬(p x = true ∧ p y = true))
    (hfa : p (f a) = true) :
    (updateFirst p f l).filter p = [f a] := by
  induction l with
  | nil => simp at hfind
  | cons x xs ih =>
    rcases List.pairwise_cons.mp huniq with ⟨hx, hxs⟩
    by_cases hpx : p x = true
    · rw [List.find?_cons_of_pos _ hpx] at hfind
      obtain rfl := Option.some.inj hfind
      simp only [updateFirst, hpx, if_pos, List.filter_cons, hfa]
      have : xs.filter p = [] :=
        List.filter_eq_nil_iff.mpr fun b hb hpb => hx b hb ⟨hpx, hpb⟩
      simp [this, hfa]
    · rw [List.find?_cons_of_neg _ hpx] at hfind
      simp only [updateFirst, hpx]
      simp [List.filter_cons, hpx, ih hfind hxs]

theorem filter_not_updateFirst {p : α → Bool} {f : α → α} {l : List α}
    (hkey : ∀ a, p (f a) = p a) :
    (updateFirst p f l).filter (fun x => !(p x)) =
      l.filter (fun x => !(p x)) := by
  induction l with
  | nil => rfl
  | cons x xs ih =>
    by_cases hpx : p x = true
    · simp [updateFirst, hpx, List.filter_cons, hkey x]
    · simp [updateFirst, hpx, List.filter_cons, ih]

theorem dayFlags_eq (uid : Int) (idx : Int × Int → Option EventResponse)
    (l : List Event) (n p m y : Bool) :
    dayFlags uid idx l n p m y =
      (n || l.any (fun e => match idx (e.id, uid) with
          | some r => r.status == "no" | none => false),
       p || l.any (fun e => (idx (e.id, uid)).isNone),
       m || l.any (fun e => match idx (e.id, uid) with
          | some r => r.status == "maybe" | none => false),
       y || l.any (fun e => match idx (e.id, uid) with
          | some r => r.status == "yes" | none => false)) := by
  induction l generalizing n p m y with
  | nil => simp [dayFlags]
  | cons e es ih =>
    simp only [dayFlags, List.any_cons]
    cases hr : idx (e.id, uid) with
    | none =>
      rw [ih]
      simp [hr, Bool.or_assoc]
    | some r =>
      have e1 : ("no" == "no") = true := by decide
      have e2 : ("no" == "maybe") = false := by decide
      have e3 : ("no" == "yes") = false := by decide
      have e4 : ("maybe" == "no") = false := by decide
      have e5 : ("maybe" == "maybe") = true := by decide
      have e6 : ("maybe" == "yes") = false := by decide
      have e7 : ("yes" == "no") = false := by decide
      have e8 : ("yes" == "maybe") = false := by decide
      have e9 : ("yes" == "yes") = true := by decide
      by_cases h1 : r.status == "no"
      · have hs : r.status = "no" := by simpa using h1
        simp [ih, hs, e1, e2, e3, Bool.or_assoc]
      · by_cases h2 : r.status == "maybe"
        · have hs : r.status = "maybe" := by simpa using h2
          simp [ih, hs, e4, e5, e6, Bool.or_assoc]
        · by_cases h3 : r.status == "yes"
          · have hs : r.status = "yes" := by simpa using h3
            simp [ih, hs, e7, e8, e9, Bool.or_assoc]
          · have h1' : (r.status == "no") = false := by simpa using h1
            have h2' : (r.status == "maybe") = false := by simpa using h2
            have h3' : (r.status == "yes") = false := by simpa using h3
            simp [ih, h1', h2', h3']

/-- C9: `day_status_for_user` aggregates a user's day by fixed priority — "no"
if any event on the day has a "no" response from the user, otherwise "pending"
if any event has no response from the user, otherwise "maybe" if any response is
"maybe", otherwise "yes" if any response is "yes", with "pending" as the final
fallback; with no user or no events it returns "empty". -/
theorem day_status_for_user_priority (user : Option User) (evs : List Event)
    (idx : Int × Int → Option EventResponse) :
    day_status_for_user user evs idx =
      match user with
      | none => "empty"
      | some u => if evs.isEmpty then "empty" else dayStatusSpec u evs idx := by
  cases user with
  | none => rfl
  | some u =>
    by_cases h : evs.isEmpty
    · simp [day_status_for_user, h]
    · have h' : evs.isEmpty = false := by simpa using h
      simp [day_status_for_user, h', dayFlags_eq, dayStatusSpec]

theorem find?_updateFirst_pos {p : α → Bool} {f : α → α} {l : List α} {a : α}
    (hfind : l.find? p = some a) (hfa : p (f a) = true) :
    (updateFirst p f l).find? p = some (f a) := by
  induction l with
  | nil => simp at hfind
  | cons x xs ih =>
    by_cases hpx : p x = true
    · rw [List.find?_cons_of_pos _ hpx] at hfind
      obtain rfl := Option.some.inj hfind
      simp [updateFirst, hpx, List.find?_cons_of_pos _ hfa]
    · rw [List.find?_cons_of_neg _ hpx] at hfind
      simp only [updateFirst, hpx, if_false, Bool.false_eq_true]
      rw [List.find?_cons_of_neg _ hpx]
      exact ih hfind

theorem exists_event_of_visible {db : DB} {eid : Int} {u : User}
    (h : is_event_visible_to_user db eid u = true) :
    ∃ e0 ∈ db.events, e0.id = eid := by
  unfold is_event_visible_to_user at h
  cases hfind : db.events.find? (fun e => e.id == eid) with
  | none => rw [hfind] at h; cases h
  | some e0 =>
    exact ⟨e0, List.mem_of_find?_eq_some hfind,
      by simpa using List.find?_some hfind⟩

theorem add_event_unchanged (db : DB) (u : Option User) (t : String)
    (sa ea : Option Int) (d : String) (ids : List Int) :
    ((add_event db u t sa ea d ids).2).suggestions = db.suggestions ∧
    ((add_event db u t sa ea d ids).2).votes = db.votes ∧
    ((add_event db u t sa ea d ids).2).nextSuggestionId = db.nextSuggestionId := by
  unfold add_event
  cases u with
  | none => exact ⟨rfl, rfl, rfl⟩
  | some u =>
    dsimp only
    split
    · exact ⟨rfl, rfl, rfl⟩
    · split
      · split
        · exact ⟨rfl, rfl, rfl⟩
        · exact ⟨rfl, rfl, rfl⟩
      · exact ⟨rfl, rfl, rfl⟩

theorem invite_to_event_unchanged (db : DB) (u : Option User) (eid : Int)
    (ids : List Int) :
    ((invite_to_event db u eid ids).2).events = db.events ∧
    ((invite_to_event db u eid ids).2).responses = db.responses ∧
    ((invite_to_event db u eid ids).2).suggestions = db.suggestions ∧
    ((invite_to_event db u eid ids).2).votes = db.votes ∧
    ((invite_to_event db u eid ids).2).nextEventId = db.nextEventId ∧
    ((invite_to_event db u eid ids).2).nextResponseId = db.nextResponseId ∧
    ((invite_to_event db u eid ids).2).nextSuggestionId = db.nextSuggestionId := by
  unfold invite_to_event
  cases u with
  | none => exact ⟨rfl, rfl, rfl, rfl, rfl, rfl, rfl⟩
  | some u =>
    dsimp only
    split
    · exact ⟨rfl, rfl, rfl, rfl, rfl, rfl, rfl⟩
    · split
      · exact ⟨rfl, rfl, rfl, rfl, rfl, rfl, rfl⟩
      · exact ⟨rfl, rfl, rfl, rfl, rfl, rfl, rfl⟩

theorem respond_unchanged (db : DB) (u : Option User) (eid : Int)
    (st cm : String) :
    ((respond db u eid st cm).2).events = db.events ∧
    ((respond db u eid st cm).2).suggestions = db.suggestions ∧
    ((respond db u eid st cm).2).votes = db.votes ∧
    ((respond db u eid st cm).2).nextEventId = db.nextEventId ∧
    ((respond db u eid st cm).2).nextSuggestionId = db.nextSuggestionId := by
  unfold respond
  cases u with
  | none => exact ⟨rfl, rfl, rfl, rfl, rfl⟩
  | some u =>
    dsimp only
    split
    · exact ⟨rfl, rfl, rfl, rfl, rfl⟩
    · split
      · exact ⟨rfl, rfl, rfl, rfl, rfl⟩
      · split
        · exact ⟨rfl, rfl, rfl, rfl, rfl⟩
        · split
          · exact ⟨rfl, rfl, rfl, rfl, rfl⟩
          · exact ⟨rfl, rfl, rfl, rfl, rfl⟩

theorem suggest_time_unchanged (db : DB) (u : Option User) (eid : Int)
    (ps pe : Option Int) (cm : String) :
    ((suggest_time db u eid ps pe cm).2).events = db.events ∧
    ((suggest_time db u eid ps pe cm).2).votes = db.votes ∧
    ((suggest_time db u eid ps pe cm).2).nextEventId = db.nextEventId := by
  unfold suggest_time
  cases u with
  | none => exact ⟨rfl, rfl, rfl⟩
  | some u =>
    dsimp only
    split
    · split
      · exact ⟨rfl, rfl, rfl⟩
      · split
        · exact ⟨rfl, rfl, rfl⟩
        · split
          · exact ⟨rfl, rfl, rfl⟩
          · split <;> split <;> exact ⟨rfl, rfl, rfl⟩
    · exact ⟨rfl, rfl, rfl⟩

theorem vote_time_unchanged (db : DB) (u : Option User) (sid : Int)
    (v : String) :
    ((vote_time db u sid v).2).events = db.events ∧
    ((vote_time db u sid v).2).responses = db.responses ∧
    ((vote_time db u sid v).2).suggestions = db.suggestions ∧
    ((vote_time db u sid v).2).nextEventId = db.nextEventId ∧
    ((vote_time db u sid v).2).nextResponseId = db.nextResponseId ∧
    ((vote_time db u sid v).2).nextSuggestionId = db.nextSuggestionId := by
  unfold vote_time
  cases u with
  | none => exact ⟨rfl, rfl, rfl, rfl, rfl, rfl⟩
  | some u =>
    dsimp only
    split
    · exact ⟨rfl, rfl, rfl, rfl, rfl, rfl⟩
    · split
      · exact ⟨rfl, rfl, rfl, rfl, rfl, rfl⟩
      · split
        · exact ⟨rfl, rfl, rfl, rfl, rfl, rfl⟩
        · split
          · split
            · exact ⟨rfl, rfl, rfl, rfl, rfl, rfl⟩
            · exact ⟨rfl, rfl, rfl, rfl, rfl, rfl⟩
          · exact ⟨rfl, rfl, rfl, rfl, rfl, rfl⟩

theorem accept_time_unchanged (db : DB) (u : Option User) (sid : Int) :
    ((accept_time db u sid).2).votes = db.votes ∧
    ((accept_time db u sid).2).nextEventId = db.nextEventId ∧
    ((accept_time db u sid).2).nextSuggestionId = db.nextSuggestionId := by
  unfold accept_time
  cases u with
  | none => exact ⟨rfl, rfl, rfl⟩
  | some u =>
    dsimp only
    split
    · exact ⟨rfl, rfl, rfl⟩
    · split
      · exact ⟨rfl, rfl, rfl⟩
      · split
        · exact ⟨rfl, rfl, rfl⟩
        · exact ⟨rfl, rfl, rfl⟩

theorem respond_responses_cases (db : DB) (u : User) (eid : Int)
    (st cm : String) :
    (((respond db (some u) eid st cm).2).responses = db.responses ∧
      ((respond db (some u) eid st cm).2).nextResponseId = db.nextResponseId) ∨
    (∃ f : EventResponse → EventResponse,
      (∀ x, (f x).event_id = x.event_id ∧ (f x).user_id = x.user_id) ∧
      ((respond db (some u) eid st cm).2).responses =
        updateFirst (fun x => x.event_id == eid && x.user_id == u.id) f
          db.responses) ∨
    (db.responses.find? (fun x => x.event_id == eid && x.user_id == u.id) = none ∧
      is_event_visible_to_user db eid u = true ∧
      ∃ w : EventResponse, w.event_id = eid ∧ w.user_id = u.id ∧
        ((respond db (some u) eid st cm).2).responses = db.responses ++ [w]) := by
  unfold respond
  dsimp only
  split
  · exact Or.inl ⟨rfl, rfl⟩
  · split
    · exact Or.inl ⟨rfl, rfl⟩
    · split
      · exact Or.inl ⟨rfl, rfl⟩
      · rename_i hvis
        split
        · refine Or.inr (Or.inl ⟨_, ?_, rfl⟩)
          exact fun x => ⟨rfl, rfl⟩
        · rename_i hnone
          refine Or.inr (Or.inr ⟨hnone, by simpa using hvis, _, ?_, ?_, rfl⟩)
          · rfl
          · rfl

theorem suggest_time_responses_cases (db : DB) (u : User) (eid : Int)
    (ps pe : Option Int) (cm : String) :
    (((suggest_time db (some u) eid ps pe cm).2).responses = db.responses) ∨
    (∃ f : EventResponse → EventResponse,
      (∀ x, (f x).event_id = x.event_id ∧ (f x).user_id = x.user_id) ∧
      ((suggest_time db (some u) eid ps pe cm).2).responses =
        updateFirst (fun x => x.event_id == eid && x.user_id == u.id) f
          db.responses) ∨
    (db.responses.find? (fun x => x.event_id == eid && x.user_id == u.id) = none ∧
      is_event_visible_to_user db eid u = true ∧
      ∃ w : EventResponse, w.event_id = eid ∧ w.user_id = u.id ∧
        ((suggest_time db (some u) eid ps pe cm).2).responses =
          db.responses ++ [w]) := by
  unfold suggest_time
  dsimp only
  split
  · split
    · exact Or.inl rfl
    · split
      · exact Or.inl rfl
      · split
        · exact Or.inl rfl
        · rename_i ps' pe' hle hcm hvis
          cases hsug : db.suggestions.find? (fun s =>
              s.event_id == eid && s.proposed_starts_at == ps'
                && s.proposed_ends_at == pe') with
          | some s0 =>
            dsimp only
            split
            · refine Or.inr (Or.inl ⟨_, ?_, rfl⟩)
              exact fun x => ⟨rfl, rfl⟩
            · rename_i hnone
              refine Or.inr (Or.inr
                ⟨hnone, by simpa using hvis, _, ?_, ?_, rfl⟩)
              · rfl
              · rfl
          | none =>
            dsimp only
            split
            · refine Or.inr (Or.inl ⟨_, ?_, rfl⟩)
              exact fun x => ⟨rfl, rfl⟩
            · rename_i hnone
              refine Or.inr (Or.inr
                ⟨hnone, by simpa using hvis, _, ?_, ?_, rfl⟩)
              · rfl
              · rfl
  · exact Or.inl rfl

theorem suggest_time_sug_cases (db : DB) (u : Option User) (eid : Int)
    (ps pe : Option Int) (cm : String) :
    (((suggest_time db u eid ps pe cm).2).suggestions = db.suggestions ∧
      ((suggest_time db u eid ps pe cm).2).nextSuggestionId =
        db.nextSuggestionId) ∨
    (∃ w : EventTimeSuggestion, w.accepted = false ∧ w.id = db.nextSuggestionId ∧
      ((suggest_time db u eid ps pe cm).2).suggestions = db.suggestions ++ [w] ∧
      ((suggest_time db u eid ps pe cm).2).nextSuggestionId =
        db.nextSuggestionId + 1) := by
  unfold suggest_time
  cases u with
  | none => exact Or.inl ⟨rfl, rfl⟩
  | some u =>
    dsimp only
    split
    · split
      · exact Or.inl ⟨rfl, rfl⟩
      · split
        · exact Or.inl ⟨rfl, rfl⟩
        · split
          · exact Or.inl ⟨rfl, rfl⟩
          · rename_i ps' pe' hle hcm hvis
            cases hsug : db.suggestions.find? (fun s =>
                s.event_id == eid && s.proposed_starts_at == ps'
                  && s.proposed_ends_at == pe') with
            | some s0 =>
              dsimp only
              split
              · exact Or.inl ⟨rfl, rfl⟩
              · exact Or.inl ⟨rfl, rfl⟩
            | none =>
              dsimp only
              split
              · refine Or.inr ⟨_, ?_, ?_, rfl, rfl⟩
                · rfl
                · rfl
              · refine Or.inr ⟨_, ?_, ?_, rfl, rfl⟩
                · rfl
                · rfl
    · exact Or.inl ⟨rfl, rfl⟩

theorem accept_time_responses_cases (db : DB) (u : Option User) (sid : Int) :
    ((accept_time db u sid).2).responses = db.responses ∨
    (∃ eid : Int, (∃ e0 ∈ db.events, e0.id = eid) ∧
      ∃ w : EventResponse, w.event_id = eid ∧
        ((accept_time db u sid).2).responses =
          db.responses.filter (fun r => !(r.event_id == eid)) ++ [w]) := by
  unfold accept_time
  cases u with
  | none => exact Or.inl rfl
  | some u =>
    dsimp only
    split
    · exact Or.inl rfl
    · split
      · exact Or.inl rfl
      · rename_i s hs e he
        split
        · exact Or.inl rfl
        · refine Or.inr
            ⟨e.id, ⟨e, List.mem_of_find?_eq_some he, rfl⟩, _, ?_, rfl⟩
          rfl

theorem accept_time_events_cases (db : DB) (u : Option User) (sid : Int) :
    ((accept_time db u sid).2).events = db.events ∨
    ∃ (p : Event → Bool) (f : Event → Event), (∀ x, (f x).id = x.id) ∧
      ((accept_time db u sid).2).events = updateFirst p f db.events := by
  unfold accept_time
  cases u with
  | none => exact Or.inl rfl
  | some u =>
    dsimp only
    split
    · exact Or.inl rfl
    · split
      · exact Or.inl rfl
      · split
        · exact Or.inl rfl
        · refine Or.inr ⟨_, _, ?_, rfl⟩
          exact fun x => rfl

theorem accept_time_sug_cases (db : DB) (u : Option User) (sid : Int) :
    ((accept_time db u sid).2).suggestions = db.suggestions ∨
    ∃ s e, db.suggestions.find? (fun x => x.id == sid) = some s ∧
      db.events.find? (fun ev => ev.id == s.event_id) = some e ∧
      ((accept_time db u sid).2).suggestions = db.suggestions.map (fun x =>
        if x.event_id == e.id then { x with accepted := x.id == s.id }
        else x) := by
  unfold accept_time
  cases u with
  | none => exact Or.inl rfl
  | some u =>
    dsimp only
    split
    · exact Or.inl rfl
    · rename_i s hs
      split
      · exact Or.inl rfl
      · rename_i e he
        split
        · exact Or.inl rfl
        · exact Or.inr ⟨s, e, hs, he, rfl⟩

theorem add_event_cases (db : DB) (u : Option User) (t : String)
    (sa ea : Option Int) (d : String) (ids : List Int) :
    (((add_event db u t sa ea d ids).2).responses = db.responses ∧
      ((add_event db u t sa ea d ids).2).events = db.events ∧
      ((add_event db u t sa ea d ids).2).nextEventId = db.nextEventId) ∨
    (∃ (ev : Event) (w : EventResponse), ev.id = db.nextEventId ∧
      w.event_id = db.nextEventId ∧
      ((add_event db u t sa ea d ids).2).events = db.events ++ [ev] ∧
      ((add_event db u t sa ea d ids).2).responses = db.responses ++ [w] ∧
      ((add_event db u t sa ea d ids).2).nextEventId = db.nextEventId + 1) := by
  unfold add_event
  cases u with
  | none => exact Or.inl ⟨rfl, rfl, rfl⟩
  | some u =>
    dsimp only
    split
    · exact Or.inl ⟨rfl, rfl, rfl⟩
    · split
      · split
        · exact Or.inl ⟨rfl, rfl, rfl⟩
        · refine Or.inr ⟨_, _, ?_, ?_, rfl, rfl, rfl⟩
          · rfl
          · rfl
      · exact Or.inl ⟨rfl, rfl, rfl⟩

theorem vote_time_votes_cases (db : DB) (u : User) (sid : Int) (v : String) :
    ((vote_time db (some u) sid v).2).votes = db.votes ∨
    ((vote_time db (some u) sid v).2).votes =
      db.votes.eraseP (fun x => x.suggestion_id == sid && x.user_id == u.id) ∨
    (∃ f : EventTimeVote → EventTimeVote,
      (∀ x, (f x).suggestion_id = x.suggestion_id ∧ (f x).user_id = x.user_id) ∧
      ((vote_time db (some u) sid v).2).votes =
        updateFirst (fun x => x.suggestion_id == sid && x.user_id == u.id) f
          db.votes) ∨
    (db.votes.find? (fun x => x.suggestion_id == sid && x.user_id == u.id)
        = none ∧
      ∃ w : EventTimeVote, w.suggestion_id = sid ∧ w.user_id = u.id ∧
        ((vote_time db (some u) sid v).2).votes = db.votes ++ [w]) := by
  unfold vote_time
  dsimp only
  split
  · exact Or.inl rfl
  · split
    · exact Or.inl rfl
    · split
      · exact Or.inl rfl
      · split
        · split
          · exact Or.inr (Or.inl rfl)
          · refine Or.inr (Or.inr (Or.inl ⟨_, ?_, rfl⟩))
            exact fun x => ⟨rfl, rfl⟩
        · rename_i hnone
          refine Or.inr (Or.inr (Or.inr ⟨hnone, _, ?_, ?_, rfl⟩))
          · rfl
          · rfl

theorem step_preserves_vote_pairs (db : DB) (op : Op)
    (h : VotePairsUnique db.votes) : VotePairsUnique (step db op).votes := by
  cases op with
  | addEventOp u t sa ea d ids =>
    show VotePairsUnique ((add_event db u t sa ea d ids).2).votes
    rw [(add_event_unchanged db u t sa ea d ids).2.1]; exact h
  | inviteOp u eid ids =>
    show VotePairsUnique ((invite_to_event db u eid ids).2).votes
    rw [(invite_to_event_unchanged db u eid ids).2.2.2.1]; exact h
  | respondOp u eid st cm =>
    show VotePairsUnique ((respond db u eid st cm).2).votes
    rw [(respond_unchanged db u eid st cm).2.2.1]; exact h
  | suggestOp u eid ps pe cm =>
    show VotePairsUnique ((suggest_time db u eid ps pe cm).2).votes
    rw [(suggest_time_unchanged db u eid ps pe cm).2.1]; exact h
  | acceptOp u sid =>
    show VotePairsUnique ((accept_time db u sid).2).votes
    rw [(accept_time_unchanged db u sid).1]; exact h
  | cleanupOp now =>
    exact h.sublist (List.filter_sublist _)
  | voteOp u sid v =>
    cases u with
    | none => exact h
    | some u =>
      show VotePairsUnique ((vote_time db (some u) sid v).2).votes
      rcases vote_time_votes_cases db u sid v with heq | heq | ⟨f, hf, heq⟩ |
          ⟨hnone, w, hw1, hw2, heq⟩
      · rw [heq]; exact h
      · rw [heq]; exact h.sublist (List.eraseP_sublist _)
      · rw [heq]
        refine pairwise_updateFirst h ?_ ?_
        · intro a b hr
          intro hx
          exact hr ⟨((hf a).1).symm.trans hx.1, ((hf a).2).symm.trans hx.2⟩
        · intro a b hr hx
          exact hr ⟨hx.1.trans (hf b).1, hx.2.trans (hf b).2⟩
      · rw [heq]
        refine List.pairwise_append.mpr ⟨h, List.pairwise_singleton .., ?_⟩
        intro a ha b hb hx
        have hb' : b = w := List.mem_singleton.mp hb
        have hfalse := List.find?_eq_none.mp hnone a ha
        rw [hb'] at hx
        apply hfalse
        simp [hx.1, hx.2, hw1, hw2]

theorem sug_invariant_of_eq {db db2 : DB}
    (hs : db2.suggestions = db.suggestions)
    (hn : db2.nextSuggestionId = db.nextSuggestionId)
    (h1 : SugIdsOk db) (h2 : AcceptedUnique db.suggestions) :
    SugIdsOk db2 ∧ AcceptedUnique db2.suggestions := by
  refine ⟨⟨?_, ?_⟩, ?_⟩
  · rw [hs]; exact h1.1
  · rw [hs, hn]; exact h1.2
  · rw [hs]; exact h2

theorem step_preserves_sug (db : DB) (op : Op)
    (h1 : SugIdsOk db) (h2 : AcceptedUnique db.suggestions) :
    SugIdsOk (step db op) ∧ AcceptedUnique (step db op).suggestions := by
  cases op with
  | addEventOp u t sa ea d ids =>
    obtain ⟨hs, -, hn⟩ := add_event_unchanged db u t sa ea d ids
    exact sug_invariant_of_eq hs hn h1 h2
  | inviteOp u eid ids =>
    obtain ⟨-, -, hs, -, -, -, hn⟩ := invite_to_event_unchanged db u eid ids
    exact sug_invariant_of_eq hs hn h1 h2
  | respondOp u eid st cm =>
    obtain ⟨-, hs, -, -, hn⟩ := respond_unchanged db u eid st cm
    exact sug_invariant_of_eq hs hn h1 h2
  | voteOp u sid v =>
    obtain ⟨-, -, hs, -, -, hn⟩ := vote_time_unchanged db u sid v
    exact sug_invariant_of_eq hs hn h1 h2
  | cleanupOp now =>
    refine ⟨⟨?_, ?_⟩, ?_⟩
    · exact h1.1.sublist ((List.filter_sublist _).map _)
    · intro s hs
      exact h1.2 s (List.mem_of_mem_filter hs)
    · exact h2.sublist (List.filter_sublist _)
  | suggestOp u eid ps pe cm =>
    rcases suggest_time_sug_cases db u eid ps pe cm with ⟨hs, hn⟩ |
        ⟨w, hacc, hid, hs, hn⟩
    · exact sug_invariant_of_eq hs hn h1 h2
    · show SugIdsOk ((suggest_time db u eid ps pe cm).2) ∧
        AcceptedUnique ((suggest_time db u eid ps pe cm).2).suggestions
      refine ⟨⟨?_, ?_⟩, ?_⟩
      · rw [hs, List.map_append]
        rw [List.nodup_append]
        refine ⟨h1.1, by simp, ?_⟩
        intro a ha hb
        obtain ⟨x, hx, hxe⟩ := List.mem_map.mp ha
        have hb' : a = w.id := by simpa using hb
        have hlt := h1.2 x hx
        have hxw : x.id = db.nextSuggestionId := by rw [hxe, hb', hid]
        omega
      · intro s hsm
        rw [hs] at hsm
        rw [hn]
        rcases List.mem_append.mp hsm with hold | hnew
        · have := h1.2 s hold
          omega
        · have : s = w := List.mem_singleton.mp hnew
          rw [this, hid]
          omega
      · rw [hs]
        refine List.pairwise_append.mpr ⟨h2, List.pairwise_singleton .., ?_⟩
        intro a ha b hb hx
        have hb' : b = w := List.mem_singleton.mp hb
        rw [hb', hacc] at hx
        exact Bool.false_ne_true hx.2.2
  | acceptOp u sid =>
    have hn := (accept_time_unchanged db u sid).2.2
    rcases accept_time_sug_cases db u sid with hs | ⟨s, e, hsfind, hefind, hs⟩
    · exact sug_invariant_of_eq hs hn h1 h2
    · have hidpres : ∀ x : EventTimeSuggestion,
          (if x.event_id == e.id then { x with accepted := x.id == s.id }
            else x).id = x.id := by
        intro x; split <;> rfl
      show SugIdsOk ((accept_time db u sid).2) ∧
        AcceptedUnique ((accept_time db u sid).2).suggestions
      refine ⟨⟨?_, ?_⟩, ?_⟩
      · rw [hs, List.map_map]
        have : (EventTimeSuggestion.id ∘ fun x =>
            if x.event_id == e.id then { x with accepted := x.id == s.id }
            else x) = EventTimeSuggestion.id := by
          funext x; exact hidpres x
        rw [this]; exact h1.1
      · intro x hx
        rw [hs] at hx
        rw [hn]
        obtain ⟨y, hy, hye⟩ := List.mem_map.mp hx
        have := h1.2 y hy
        rw [← hye]
        rw [hidpres y]
        exact this
      · rw [hs]
        have hid : db.suggestions.Pairwise fun a b => a.id ≠ b.id :=
          (List.pairwise_map).mp h1.1
        refine List.pairwise_map.mpr ?_
        refine (h2.and hid).imp ?_
        intro a b hab
        obtain ⟨hold, hne⟩ := hab
        by_cases ha : (a.event_id == e.id) = true <;>
          by_cases hb : (b.event_id == e.id) = true
        · simp only [ha, hb, if_true]
          intro hx
          apply hne
          have h1' : a.id = s.id := by simpa using hx.2.1
          have h2' : b.id = s.id := by simpa using hx.2.2
          rw [h1', h2']
        · have hb0 : (b.event_id == e.id) = false := by simpa using hb
          simp only [ha, hb0, if_true, Bool.false_eq_true, if_false]
          intro hx
          have hae : a.event_id = e.id := by simpa using ha
          have hx1 : a.event_id = b.event_id := by simpa using hx.1
          rw [← hx1, hae] at hb0
          simp at hb0
        · have ha0 : (a.event_id == e.id) = false := by simpa using ha
          simp only [ha0, hb, if_true, Bool.false_eq_true, if_false]
          intro hx
          have hbe : b.event_id = e.id := by simpa using hb
          have hx1 : a.event_id = b.event_id := by simpa using hx.1
          rw [hx1, hbe] at ha0
          simp at ha0
        · have ha0 : (a.event_id == e.id) = false := by simpa using ha
          have hb0 : (b.event_id == e.id) = false := by simpa using hb
          simp only [ha0, hb0, Bool.false_eq_true, if_false]
          exact hold

/-- The persistent response-table invariant: event primary keys stay below the
events counter, responses reference only such keys, and no (event, user) pair
owns two responses. -/
def RespInv (db : DB) : Prop :=
  EventIdsBounded db ∧ ResponseEventIdsBounded db ∧
    ResponsePairsUnique db.responses

theorem resp_invariant_of_eq {db db2 : DB} (he : db2.events = db.events)
    (hr : db2.responses = db.responses) (hn : db2.nextEventId = db.nextEventId)
    (h : RespInv db) : RespInv db2 := by
  refine ⟨fun e hm => ?_, fun r hm => ?_, ?_⟩
  · rw [hn]; exact h.1 e (he ▸ hm)
  · rw [hn]; exact h.2.1 r (hr ▸ hm)
  · show ResponsePairsUnique db2.responses
    rw [hr]; exact h.2.2

theorem resp_pairs_updateFirst {l : List EventResponse} {eid uid : Int}
    {f : EventResponse → EventResponse}
    (hf : ∀ x, (f x).event_id = x.event_id ∧ (f x).user_id = x.user_id)
    (h : ResponsePairsUnique l) :
    ResponsePairsUnique
      (updateFirst (fun x => x.event_id == eid && x.user_id == uid) f l) := by
  refine pairwise_updateFirst h ?_ ?_
  · intro a b hr hx
    exact hr ⟨((hf a).1).symm.trans hx.1, ((hf a).2).symm.trans hx.2⟩
  · intro a b hr hx
    exact hr ⟨hx.1.trans (hf b).1, hx.2.trans (hf b).2⟩

theorem resp_pairs_append {l : List EventResponse} {eid uid : Int}
    {w : EventResponse}
    (hnone : l.find? (fun x => x.event_id == eid && x.user_id == uid) = none)
    (hw1 : w.event_id = eid) (hw2 : w.user_id = uid)
    (h : ResponsePairsUnique l) : ResponsePairsUnique (l ++ [w]) := by
  refine List.pairwise_append.mpr ⟨h, List.pairwise_singleton .., ?_⟩
  intro a ha b hb hx
  have hb' : b = w := List.mem_singleton.mp hb
  have hfalse := List.find?_eq_none.mp hnone a ha
  rw [hb'] at hx
  apply hfalse
  simp [hx.1, hx.2, hw1, hw2]

theorem resp_bound_updateFirst {l : List EventResponse} {p : EventResponse → Bool}
    {f : EventResponse → EventResponse}
    (hf : ∀ x, (f x).event_id = x.event_id) {n : Int}
    (h : ∀ r ∈ l, r.event_id < n) :
    ∀ r ∈ updateFirst p f l, r.event_id < n := by
  intro r hr
  rcases mem_updateFirst hr with hm | ⟨a, ha, hae⟩
  · exact h r hm
  · rw [hae, hf a]; exact h a ha

theorem step_preserves_resp (db : DB) (op : Op) (h : RespInv db) :
    RespInv (step db op) := by
  cases op with
  | inviteOp u eid ids =>
    obtain ⟨he, hr, -, -, hn, -, -⟩ := invite_to_event_unchanged db u eid ids
    exact resp_invariant_of_eq he hr hn h
  | voteOp u sid v =>
    obtain ⟨he, hr, -, hn, -, -⟩ := vote_time_unchanged db u sid v
    exact resp_invariant_of_eq he hr hn h
  | cleanupOp now =>
    refine ⟨fun e hm => h.1 e (List.mem_of_mem_filter hm),
      fun r hm => h.2.1 r (List.mem_of_mem_filter hm),
      h.2.2.sublist (List.filter_sublist _)⟩
  | respondOp u eid st cm =>
    cases u with
    | none => exact h
    | some u =>
      obtain ⟨he, -, -, hn, -⟩ := respond_unchanged db (some u) eid st cm
      show RespInv ((respond db (some u) eid st cm).2)
      rcases respond_responses_cases db u eid st cm with ⟨hr, -⟩ |
          ⟨f, hf, hr⟩ | ⟨hnone, hvis, w, hw1, hw2, hr⟩
      · exact resp_invariant_of_eq he hr hn h
      · refine ⟨fun e hm => ?_, fun r hm => ?_, ?_⟩
        · rw [hn]; exact h.1 e (he ▸ hm)
        · rw [hn]
          rw [hr] at hm
          exact resp_bound_updateFirst (fun x => (hf x).1) h.2.1 r hm
        · show ResponsePairsUnique ((respond db (some u) eid st cm).2).responses
          rw [hr]
          exact resp_pairs_updateFirst hf h.2.2
      · obtain ⟨e0, he0, he0id⟩ := exists_event_of_visible hvis
        refine ⟨fun e hm => ?_, fun r hm => ?_, ?_⟩
        · rw [hn]; exact h.1 e (he ▸ hm)
        · rw [hn]
          rw [hr] at hm
          rcases List.mem_append.mp hm with hold | hnew
          · exact h.2.1 r hold
          · have hrw : r = w := List.mem_singleton.mp hnew
            rw [hrw, hw1, ← he0id]
            exact h.1 e0 he0
        · show ResponsePairsUnique ((respond db (some u) eid st cm).2).responses
          rw [hr]
          exact resp_pairs_append hnone hw1 hw2 h.2.2
  | suggestOp u eid ps pe cm =>
    cases u with
    | none => exact h
    | some u =>
      obtain ⟨he, -, hn⟩ := suggest_time_unchanged db (some u) eid ps pe cm
      show RespInv ((suggest_time db (some u) eid ps pe cm).2)
      rcases suggest_time_responses_cases db u eid ps pe cm with hr |
          ⟨f, hf, hr⟩ | ⟨hnone, hvis, w, hw1, hw2, hr⟩
      · exact resp_invariant_of_eq he hr hn h
      · refine ⟨fun e hm => ?_, fun r hm => ?_, ?_⟩
        · rw [hn]; exact h.1 e (he ▸ hm)
        · rw [hn]
          rw [hr] at hm
          exact resp_bound_updateFirst (fun x => (hf x).1) h.2.1 r hm
        · show ResponsePairsUnique
            ((suggest_time db (some u) eid ps pe cm).2).responses
          rw [hr]
          exact resp_pairs_updateFirst hf h.2.2
      · obtain ⟨e0, he0, he0id⟩ := exists_event_of_visible hvis
        refine ⟨fun e hm => ?_, fun r hm => ?_, ?_⟩
        · rw [hn]; exact h.1 e (he ▸ hm)
        · rw [hn]
          rw [hr] at hm
          rcases List.mem_append.mp hm with hold | hnew
          · exact h.2.1 r hold
          · have hrw : r = w := List.mem_singleton.mp hnew
            rw [hrw, hw1, ← he0id]
            exact h.1 e0 he0
        · show ResponsePairsUnique
            ((suggest_time db (some u) eid ps pe cm).2).responses
          rw [hr]
          exact resp_pairs_append hnone hw1 hw2 h.2.2
  | addEventOp u t sa ea d ids =>
    show RespInv ((add_event db u t sa ea d ids).2)
    rcases add_event_cases db u t sa ea d ids with ⟨hr, he, hn⟩ |
        ⟨ev, w, hevid, hwid, he, hr, hn⟩
    · exact resp_invariant_of_eq he hr hn h
    · refine ⟨fun e hm => ?_, fun r hm => ?_, ?_⟩
      · rw [hn]
        rw [he] at hm
        rcases List.mem_append.mp hm with hold | hnew
        · have := h.1 e hold; omega
        · have hew : e = ev := List.mem_singleton.mp hnew
          rw [hew, hevid]; omega
      · rw [hn]
        rw [hr] at hm
        rcases List.mem_append.mp hm with hold | hnew
        · have := h.2.1 r hold; omega
        · have hrw : r = w := List.mem_singleton.mp hnew
          rw [hrw, hwid]; omega
      · show ResponsePairsUnique ((add_event db u t sa ea d ids).2).responses
        rw [hr]
        refine List.pairwise_append.mpr
          ⟨h.2.2, List.pairwise_singleton .., ?_⟩
        intro a ha b hb hx
        have hb' : b = w := List.mem_singleton.mp hb
        have hlt := h.2.1 a ha
        rw [hb', hwid] at hx
        have hx1 := hx.1
        omega
  | acceptOp u sid =>
    cases u with
    | none => exact h
    | some u =>
      have hn := (accept_time_unchanged db (some u) sid).2.1
      have hec := accept_time_events_cases db (some u) sid
      have hrc := accept_time_responses_cases db (some u) sid
      show RespInv ((accept_time db (some u) sid).2)
      refine ⟨fun e hm => ?_, fun r hm => ?_, ?_⟩
      · rw [hn]
        rcases hec with he | ⟨p, f, hfid, he⟩
        · exact h.1 e (he ▸ hm)
        · rw [he] at hm
          rcases mem_updateFirst hm with hold | ⟨a, ha, hae⟩
          · exact h.1 e hold
          · rw [hae, hfid a]; exact h.1 a ha
      · rw [hn]
        rcases hrc with hr | ⟨eid, ⟨e0, he0, he0id⟩, w, hw, hr⟩
        · exact h.2.1 r (hr ▸ hm)
        · rw [hr] at hm
          rcases List.mem_append.mp hm with hold | hnew
          · exact h.2.1 r (List.mem_of_mem_filter hold)
          · have hrw : r = w := List.mem_singleton.mp hnew
            rw [hrw, hw, ← he0id]
            exact h.1 e0 he0
      · rcases hrc with hr | ⟨eid, ⟨e0, he0, he0id⟩, w, hw, hr⟩
        · show ResponsePairsUnique ((accept_time db (some u) sid).2).responses
          rw [hr]; exact h.2.2
        · show ResponsePairsUnique ((accept_time db (some u) sid).2).responses
          rw [hr]
          refine List.pairwise_append.mpr
            ⟨h.2.2.sublist (List.filter_sublist _),
              List.pairwise_singleton .., ?_⟩
          intro a ha b hb hx
          have hb' : b = w := List.mem_singleton.mp hb
          have ha2 := (List.mem_filter.mp ha).2
          rw [hb', hw] at hx
          rw [hx.1] at ha2
          simp at ha2

theorem run_preserves {P : DB → Prop}
    (hstep : ∀ db op, P db → P (step db op)) (ops : List Op) :
    ∀ db : DB, P db → P (run db ops) := by
  induction ops with
  | nil => exact fun db h => h
  | cons op ops ih => exact fun db h => ih _ (hstep db op h)

/-- C4: starting from a state whose suggestion primary keys are sound and which
has at most one accepted suggestion per event, any sequence of requests
preserves "at most one accepted suggestion per event"; and a successful
accept_time sets the accepted flag to true exactly on the accepted suggestion
and to false on every other suggestion of the same event. -/
theorem at_most_one_accepted_per_event (db : DB) (ops : List Op)
    (hid : SugIdsOk db) (hacc : AcceptedUnique db.suggestions) :
    AcceptedUnique (run db ops).suggestions
    ∧ (∀ (u : User) (sid : Int) (s : EventTimeSuggestion) (e : Event),
        db.suggestions.find? (fun x => x.id == sid) = some s →
        db.events.find? (fun ev => ev.id == s.event_id) = some e →
        e.created_by_user_id = u.id →
        ∀ x ∈ ((accept_time db (some u) sid).2).suggestions,
          x.event_id = e.id → (x.accepted = true ↔ x.id = s.id)) := by
  constructor
  · have hrun := @run_preserves
      (fun d => SugIdsOk d ∧ AcceptedUnique d.suggestions)
      (fun d op hp => step_preserves_sug d op hp.1 hp.2) ops db ⟨hid, hacc⟩
    exact hrun.2
  · intro u sid s e hsfind hefind hcr x hx hev
    have hbne : (e.created_by_user_id != u.id) = false := by simp [hcr]
    simp only [accept_time, hsfind, hefind, hbne, Bool.false_eq_true,
      if_false] at hx
    obtain ⟨y, hy, hye⟩ := List.mem_map.mp hx
    by_cases hevy : (y.event_id == e.id) = true
    · rw [← hye]
      simp only [hevy, if_true]
      constructor
      · intro hacc'
        have hbeq : (y.id == s.id) = true := by simpa using hacc'
        simpa using hbeq
      · intro hid'
        have hyid : y.id = s.id := by simpa using hid'
        simp [hyid]
    · exfalso
      have h0 : (y.event_id == e.id) = false := by simpa using hevy
      rw [← hye] at hev
      simp only [h0, Bool.false_eq_true, if_false] at hev
      rw [hev] at h0
      simp at h0

/-- C6: starting from a state with sound event keys and at most one response
per (event, user) pair, any sequence of requests preserves "at most one
response per (event, user)"; moreover respond and suggest_time leave the number
of responses unchanged when the user already has a response for the event (they
update it in place instead of inserting). -/
theorem at_most_one_response_per_pair (db : DB) (ops : List Op)
    (h1 : EventIdsBounded db) (h2 : ResponseEventIdsBounded db)
    (h3 : ResponsePairsUnique db.responses) :
    ResponsePairsUnique (run db ops).responses
    ∧ (∀ (db2 : DB) (u : User) (eid : Int) (st cm : String),
        (db2.responses.find? (fun r =>
          r.event_id == eid && r.user_id == u.id)).isSome →
        ((respond db2 (some u) eid st cm).2).responses.length =
          db2.responses.length)
    ∧ (∀ (db2 : DB) (u : User) (eid : Int) (ps pe : Option Int) (cm : String),
        (db2.responses.find? (fun r =>
          r.event_id == eid && r.user_id == u.id)).isSome →
        ((suggest_time db2 (some u) eid ps pe cm).2).responses.length =
          db2.responses.length) := by
  refine ⟨?_, ?_, ?_⟩
  · have hrun := @run_preserves RespInv step_preserves_resp ops db ⟨h1, h2, h3⟩
    exact hrun.2.2
  · intro db2 u eid st cm hsome
    rcases respond_responses_cases db2 u eid st cm with ⟨hr, -⟩ |
        ⟨f, -, hr⟩ | ⟨hnone, -, -⟩
    · rw [hr]
    · rw [hr, length_updateFirst]
    · rw [hnone] at hsome; simp at hsome
  · intro db2 u eid ps pe cm hsome
    rcases suggest_time_responses_cases db2 u eid ps pe cm with hr |
        ⟨f, -, hr⟩ | ⟨hnone, -, -⟩
    · rw [hr]
    · rw [hr, length_updateFirst]
    · rw [hnone] at hsome; simp at hsome

/-- C7: starting from a state with at most one vote per (suggestion, user)
pair, any sequence of requests preserves that bound: vote_time deletes,
updates in place, or inserts only when the user has no vote on the
suggestion. -/
theorem at_most_one_vote_per_pair (db : DB) (ops : List Op)
    (h : VotePairsUnique db.votes) : VotePairsUnique (run db ops).votes :=
  @run_preserves (fun d => VotePairsUnique d.votes)
    (fun d op hp => step_preserves_vote_pairs d op hp) ops db h

/-- C8: a logged-in user who is not the event's creator gets the NOT_CREATOR
redirect from invite_to_event and from accept_time, and the database — events,
invites, responses, suggestions and votes alike — is returned unchanged. -/
theorem not_creator_rejected (db : DB) (u : User) (event_id sid : Int)
    (e e' : Event) (s : EventTimeSuggestion) (ids : List Int) :
    (db.events.find? (fun ev => ev.id == event_id) = some e →
      e.created_by_user_id ≠ u.id →
      invite_to_event db (some u) event_id ids =
        ("/tasks?error=NOT_CREATOR", db))
    ∧ (db.suggestions.find? (fun x => x.id == sid) = some s →
      db.events.find? (fun ev => ev.id == s.event_id) = some e' →
      e'.created_by_user_id ≠ u.id →
      accept_time db (some u) sid = ("/tasks?error=NOT_CREATOR", db)) := by
  constructor
  · intro hfind hne
    have hb : (e.created_by_user_id != u.id) = true := by simpa using hne
    simp only [invite_to_event, hfind, hb, if_true]
  · intro hsf hef hne
    have hb : (e'.created_by_user_id != u.id) = true := by simpa using hne
    simp only [accept_time, hsf, hef, hb, if_true]

/-- C2 (schema): models.py's Event table declares a starts_at column but no
ends_at column, although main.py reads and writes Event.ends_at in
cleanup_past_events, add_event and accept_time. -/
theorem event_table_missing_ends_at :
    "starts_at" ∈ eventTableColumns ∧ "ends_at" ∉ eventTableColumns ∧
      "ends_at" ∈ eventAttrsUsedByMain := by decide

/-- C3 (schema): models.py's EventTimeSuggestion table declares neither a
proposed_ends_at column nor a comment column, and its uniqueness constraint
uq_event_suggested_time covers only (event_id, proposed_starts_at), although
main.py stores and reads both attributes and deduplicates by the full proposed
range. -/
theorem suggestion_table_missing_columns :
    "proposed_ends_at" ∉ eventTimeSuggestionTableColumns ∧
    "comment" ∉ eventTimeSuggestionTableColumns ∧
    "proposed_ends_at" ∈ suggestionAttrsUsedByMain ∧
    "comment" ∈ suggestionAttrsUsedByMain ∧
    "proposed_ends_at" ∉ uqEventSuggestedTimeColumns := by decide

/-- C1: when the event's creator accepts an existing suggestion of an existing
event, the event's start and end are set to the proposed start and end, every
previously stored response of the event is deleted, and exactly one response
remains for the event: the creator's "yes" with no comment.  Responses of other
events are untouched. -/
theorem accept_time_applies_and_resets (db : DB) (u : User) (sid : Int)
    (s : EventTimeSuggestion) (e : Event)
    (hs : db.suggestions.find? (fun x => x.id == sid) = some s)
    (he : db.events.find? (fun ev => ev.id == s.event_id) = some e)
    (hcr : e.created_by_user_id = u.id) :
    (accept_time db (some u) sid).1 = "/tasks"
    ∧ ((accept_time db (some u) sid).2).events.find?
        (fun ev => ev.id == s.event_id) =
      some { e with starts_at := s.proposed_starts_at,
                    ends_at := s.proposed_ends_at }
    ∧ ((accept_time db (some u) sid).2).responses.filter
        (fun r => r.event_id == e.id) =
      [{ id := db.nextResponseId, event_id := e.id, user_id := u.id,
         status := "yes", comment := none }]
    ∧ ((accept_time db (some u) sid).2).responses.filter
        (fun r => !(r.event_id == e.id)) =
      db.responses.filter (fun r => !(r.event_id == e.id)) := by
  have hbne : (e.created_by_user_id != u.id) = false := by simp [hcr]
  refine ⟨?_, ?_, ?_, ?_⟩
  · simp only [accept_time, hs, he, hbne, Bool.false_eq_true, if_false]
  · simp only [accept_time, hs, he, hbne, Bool.false_eq_true, if_false]
    refine find?_updateFirst_pos he ?_
    have hp := List.find?_some he
    simpa using hp
  · simp only [accept_time, hs, he, hbne, Bool.false_eq_true, if_false]
    rw [List.filter_append, List.filter_filter]
    have hnil : db.responses.filter
        (fun a => a.event_id == e.id && !(a.event_id == e.id)) = [] := by
      apply List.filter_eq_nil_iff.mpr
      intro a _
      cases hc : (a.event_id == e.id) <;> simp [hc]
    rw [hnil]
    simp
  · simp only [accept_time, hs, he, hbne, Bool.false_eq_true, if_false]
    rw [List.filter_append, List.filter_filter]
    simp [Bool.and_self]

/-- C5: a logged-in user's visible-events query returns exactly the events the
user created or is invited to; an anonymous request (whose query filters on the
impossible id -1) sees no events; and is_event_visible_to_user decides exactly
creator-or-invitee membership for an existing event. -/
theorem visible_events_characterization (db : DB) (u : User) (e : Event)
    (eid : Int)
    (hanon : ∀ ev ∈ db.events, ev.id ≠ -1)
    (hnodup : (db.events.map Event.id).Nodup) :
    (e ∈ visible_events_query db (some u) ↔
      e ∈ db.events ∧ (e.created_by_user_id = u.id ∨
        ∃ i ∈ db.invites, i.event_id = e.id ∧ i.user_id = u.id))
    ∧ visible_events_query db none = []
    ∧ (is_event_visible_to_user db eid u = true ↔
      ∃ ev ∈ db.events, ev.id = eid ∧ (ev.created_by_user_id = u.id ∨
        ∃ i ∈ db.invites, i.event_id = eid ∧ i.user_id = u.id)) := by
  refine ⟨?_, ?_, ?_⟩
  · simp [visible_events_query, List.mem_filter, List.any_eq_true,
      and_assoc]
  · apply List.filter_eq_nil_iff.mpr
    intro ev hev hid
    exact hanon ev hev (by simpa using hid)
  · cases hfind : db.events.find? (fun e0 => e0.id == eid) with
    | none =>
      have hvz : is_event_visible_to_user db eid u = false := by
        unfold is_event_visible_to_user
        rw [hfind]
      rw [hvz]
      constructor
      · intro hfalse; cases hfalse
      · rintro ⟨ev, hev, hid, -⟩
        have := List.find?_eq_none.mp hfind ev hev
        simp [hid] at this
    | some e0 =>
      have hv : is_event_visible_to_user db eid u =
          (if (e0.created_by_user_id == u.id) = true then true
            else (db.invites.find? (fun i =>
              i.event_id == eid && i.user_id == u.id)).isSome) := by
        unfold is_event_visible_to_user
        rw [hfind]
      rw [hv]
      have he0mem : e0 ∈ db.events := List.mem_of_find?_eq_some hfind
      have he0id : e0.id = eid := by simpa using List.find?_some hfind
      by_cases hcr : (e0.created_by_user_id == u.id) = true
      · rw [if_pos hcr]
        constructor
        · intro _
          exact ⟨e0, he0mem, he0id, Or.inl (by simpa using hcr)⟩
        · intro _; rfl
      · rw [if_neg hcr]
        constructor
        · intro hsome
          rw [Option.isSome_iff_exists] at hsome
          obtain ⟨i, hi⟩ := hsome
          have him : i ∈ db.invites := List.mem_of_find?_eq_some hi
          have hip := List.find?_some hi
          rw [Bool.and_eq_true] at hip
          exact ⟨e0, he0mem, he0id,
            Or.inr ⟨i, him, by simpa using hip.1, by simpa using hip.2⟩⟩
        · rintro ⟨ev, hev, hevid, hdisj⟩
          have hev0 : ev = e0 :=
            List.inj_on_of_nodup_map hnodup hev he0mem
              (by rw [hevid, he0id])
          rcases hdisj with hc | ⟨i, him, hie, hiu⟩
          · exfalso
            rw [hev0] at hc
            simp [hc] at hcr
          · rw [Option.isSome_iff_exists]
            have hex : ∃ x ∈ db.invites,
                (x.event_id == eid && x.user_id == u.id) = true :=
              ⟨i, him, by simp [hie, hiu]⟩
            obtain ⟨x, hxm, hxp⟩ := hex
            rcases hfound : db.invites.find? (fun x =>
                x.event_id == eid && x.user_id == u.id) with - | y
            · exact absurd hxp (List.find?_eq_none.mp hfound x hxm)
            · exact ⟨y, hfound⟩

/-- C10: vote_time is a toggle.  With a valid vote value, an existing
suggestion and visibility, a user's identical existing vote is deleted so that
no vote of theirs remains on the suggestion, a differing existing vote is
replaced in place by the new value, other rows are untouched, and with no
existing vote a fresh row is appended. -/
theorem vote_time_toggle (db : DB) (u : User) (sid : Int) (vote : String)
    (s : EventTimeSuggestion)
    (hs : db.suggestions.find? (fun x => x.id == sid) = some s)
    (hvis : is_event_visible_to_user db s.event_id u = true)
    (hvote : pyLower (pyStrip vote) = "up" ∨ pyLower (pyStrip vote) = "down")
    (huniq : VotePairsUnique db.votes) :
    (∀ ex, db.votes.find?
        (fun x => x.suggestion_id == sid && x.user_id == u.id) = some ex →
      ((ex.vote = pyLower (pyStrip vote) →
          ((vote_time db (some u) sid vote).2).votes.filter
            (fun x => x.suggestion_id == sid && x.user_id == u.id) = [])
        ∧ (ex.vote ≠ pyLower (pyStrip vote) →
          ((vote_time db (some u) sid vote).2).votes.filter
            (fun x => x.suggestion_id == sid && x.user_id == u.id) =
            [{ ex with vote := pyLower (pyStrip vote) }])
        ∧ ((vote_time db (some u) sid vote).2).votes.filter
            (fun x => !(x.suggestion_id == sid && x.user_id == u.id)) =
          db.votes.filter
            (fun x => !(x.suggestion_id == sid && x.user_id == u.id))))
    ∧ (db.votes.find? (fun x => x.suggestion_id == sid && x.user_id == u.id)
          = none →
      ((vote_time db (some u) sid vote).2).votes =
        db.votes ++ [{ id := db.nextVoteId, suggestion_id := sid,
                       user_id := u.id,
                       vote := pyLower (pyStrip vote) }]) := by
  have hcond : (!(pyLower (pyStrip vote) == "up"
      || pyLower (pyStrip vote) == "down")) = false := by
    rcases hvote with h | h <;> simp [h]
  have hkey : ∀ a b : EventTimeVote,
      ¬(a.suggestion_id = b.suggestion_id ∧ a.user_id = b.user_id) →
      ¬((a.suggestion_id == sid && a.user_id == u.id) = true ∧
        (b.suggestion_id == sid && b.user_id == u.id) = true) := by
    intro a b hab hk
    obtain ⟨hka, hkb⟩ := hk
    simp only [Bool.and_eq_true, beq_iff_eq] at hka hkb
    exact hab ⟨hka.1.trans hkb.1.symm, hka.2.trans hkb.2.symm⟩
  have hkuniq : db.votes.Pairwise (fun x y =>
      ¬((x.suggestion_id == sid && x.user_id == u.id) = true ∧
        (y.suggestion_id == sid && y.user_id == u.id) = true)) :=
    huniq.imp (hkey _ _)
  constructor
  · intro ex hex
    by_cases hev : (ex.vote == pyLower (pyStrip vote)) = true
    · refine ⟨fun _ => ?_, fun hdiff => ?_, ?_⟩
      · simp only [vote_time, hcond, Bool.false_eq_true, if_false, hs, hvis,
          Bool.not_true, hex, hev, if_true]
        exact filter_eraseP_of_unique hkuniq
      · exact absurd (by simpa using hev) hdiff
      · simp only [vote_time, hcond, Bool.false_eq_true, if_false, hs, hvis,
          Bool.not_true, hex, hev, if_true]
        exact filter_not_eraseP
    · have hev' : (ex.vote == pyLower (pyStrip vote)) = false := by
        simpa using hev
      refine ⟨fun hsame => ?_, fun _ => ?_, ?_⟩
      · exact absurd hsame (by simpa using hev')
      · simp only [vote_time, hcond, Bool.false_eq_true, if_false, hs, hvis,
          Bool.not_true, hex, hev', if_false]
        refine filter_updateFirst_pos hex hkuniq ?_
        have hp := List.find?_some hex
        simpa using hp
      · simp only [vote_time, hcond, Bool.false_eq_true, if_false, hs, hvis,
          Bool.not_true, hex, hev', if_false]
        exact filter_not_updateFirst (fun a => rfl)
  · intro hnone
    simp only [vote_time, hcond, Bool.false_eq_true, if_false, hs, hvis,
      Bool.not_true, hnone]

/-- Concrete user for instantiating the theorems. -/
def user1 : User :=
  { id := 1, name := "Anna", username := "anna", email := "anna@example.com",
    password_hash := "x" }

/-- Second concrete user, invited to `event1`. -/
def user2 : User :=
  { id := 2, name := "Bela", username := "bela", email := "bela@example.com",
    password_hash := "y" }

/-- Concrete event created by `user1`. -/
def event1 : Event :=
  { id := 1, title := "lunch", starts_at := 100, ends_at := 200,
    description := none, created_by_user_id := 1 }

/-- Concrete pending time suggestion by `user2` for `event1`. -/
def sugg1 : EventTimeSuggestion :=
  { id := 1, event_id := 1, proposed_by_user_id := 2,
    proposed_starts_at := 300, proposed_ends_at := 400, accepted := false,
    comment := none }

/-- Concrete database: two users, one event created by user 1 with user 2
invited, the creator's "yes" response, one pending suggestion and user 2's
"up" vote on it. -/
def db0 : DB :=
  { users := [user1, user2], events := [event1],
    invites := [{ id := 1, event_id := 1, user_id := 2,
                  invited_by_user_id := 1 }],
    responses := [{ id := 1, event_id := 1, user_id := 1, status := "yes",
                    comment := none }],
    suggestions := [sugg1],
    votes := [{ id := 1, suggestion_id := 1, user_id := 2, vote := "up" }],
    nextEventId := 2, nextInviteId := 2, nextResponseId := 2,
    nextSuggestionId := 2, nextVoteId := 2 }

/-- Witness instantiating `accept_time_applies_and_resets` on `db0`. -/
theorem accept_time_applies_and_resets_witness :
    (accept_time db0 (some user1) 1).1 = "/tasks"
    ∧ ((accept_time db0 (some user1) 1).2).events.find?
        (fun ev => ev.id == sugg1.event_id) =
      some { event1 with starts_at := sugg1.proposed_starts_at,
                         ends_at := sugg1.proposed_ends_at }
    ∧ ((accept_time db0 (some user1) 1).2).responses.filter
        (fun r => r.event_id == event1.id) =
      [{ id := db0.nextResponseId, event_id := event1.id, user_id := user1.id,
         status := "yes", comment := none }]
    ∧ ((accept_time db0 (some user1) 1).2).responses.filter
        (fun r => !(r.event_id == event1.id)) =
      db0.responses.filter (fun r => !(r.event_id == event1.id)) :=
  accept_time_applies_and_resets db0 user1 1 sugg1 event1 (by decide)
    (by decide) (by decide)

/-- Witness instantiating `at_most_one_accepted_per_event` on `db0` with an
accepting request. -/
theorem at_most_one_accepted_per_event_witness :
    AcceptedUnique (run db0 [Op.acceptOp (some user1) 1]).suggestions ∧
    (∀ x ∈ ((accept_time db0 (some user1) 1).2).suggestions,
      x.event_id = event1.id → (x.accepted = true ↔ x.id = sugg1.id)) := by
  have h := at_most_one_accepted_per_event db0 [Op.acceptOp (some user1) 1]
    (by unfold SugIdsOk; decide) (by unfold AcceptedUnique; decide)
  exact ⟨h.1, h.2 user1 1 sugg1 event1 (by decide) (by decide) (by decide)⟩

/-- Witness instantiating `visible_events_characterization` on `db0`. -/
theorem visible_events_characterization_witness :
    (event1 ∈ visible_events_query db0 (some user2) ↔
      event1 ∈ db0.events ∧ (event1.created_by_user_id = user2.id ∨
        ∃ i ∈ db0.invites, i.event_id = event1.id ∧ i.user_id = user2.id))
    ∧ visible_events_query db0 none = []
    ∧ (is_event_visible_to_user db0 1 user2 = true ↔
      ∃ ev ∈ db0.events, ev.id = 1 ∧ (ev.created_by_user_id = user2.id ∨
        ∃ i ∈ db0.invites, i.event_id = 1 ∧ i.user_id = user2.id)) :=
  visible_events_characterization db0 user2 event1 1 (by decide) (by decide)

/-- Witness instantiating `at_most_one_response_per_pair` on `db0` with a
response request, and the in-place update when the creator answers again. -/
theorem at_most_one_response_per_pair_witness :
    ResponsePairsUnique
      (run db0 [Op.respondOp (some user2) 1 "maybe" ""]).responses ∧
    ((respond db0 (some user1) 1 "no" "").2).responses.length =
      db0.responses.length := by
  have h := at_most_one_response_per_pair db0
    [Op.respondOp (some user2) 1 "maybe" ""] (by unfold EventIdsBounded; decide)
    (by unfold ResponseEventIdsBounded; decide)
    (by unfold ResponsePairsUnique; decide)
  exact ⟨h.1, h.2.1 db0 user1 1 "no" "" (by decide)⟩

/-- Witness instantiating `at_most_one_vote_per_pair` on `db0` with a vote
request. -/
theorem at_most_one_vote_per_pair_witness :
    VotePairsUnique (run db0 [Op.voteOp (some user2) 1 "down"]).votes :=
  at_most_one_vote_per_pair db0 [Op.voteOp (some user2) 1 "down"]
    (by unfold VotePairsUnique; decide)

/-- Witness instantiating `not_creator_rejected`: user 2 is not the creator of
event 1, so both creator-only endpoints reject and return `db0` unchanged. -/
theorem not_creator_rejected_witness :
    (invite_to_event db0 (some user2) 1 [2] =
      ("/tasks?error=NOT_CREATOR", db0))
    ∧ (accept_time db0 (some user2) 1 = ("/tasks?error=NOT_CREATOR", db0)) := by
  have h := not_creator_rejected db0 user2 1 1 event1 event1 sugg1 [2]
  exact ⟨h.1 (by decide) (by decide), h.2 (by decide) (by decide) (by decide)⟩

/-- Witness instantiating `vote_time_toggle`: user 2's existing "up" vote on
suggestion 1 is toggled off by voting "up" again, leaving other rows
unchanged. -/
theorem vote_time_toggle_witness :
    ((vote_time db0 (some user2) 1 "up").2).votes.filter
      (fun x => x.suggestion_id == 1 && x.user_id == user2.id) = [] ∧
    ((vote_time db0 (some user2) 1 "up").2).votes.filter
      (fun x => !(x.suggestion_id == 1 && x.user_id == user2.id)) =
    db0.votes.filter
      (fun x => !(x.suggestion_id == 1 && x.user_id == user2.id)) := by
  have h := vote_time_toggle db0 user2 1 "up" sugg1 (by decide) (by decide)
    (by decide) (by unfold VotePairsUnique; decide)
  have h2 := h.1 { id := 1, suggestion_id := 1, user_id := 2, vote := "up" }
    (by decide)
  exact ⟨h2.1 (by decide), h2.2.2⟩

end Schedy
